import Mathlib

/-!
# Heartbeats emitter (`cmd/heartbeats/main.go`)

A shallow embedding of the heartbeat emitter: flag and environment resolution,
label unquoting, tick period resolution, source derivation, and the emission
loop, followed by the properties of the emitter that the specification states.

Go values are embedded as follows.

* `string` is a list of bytes (`GoString`); it need not be valid UTF-8.
* `int` is the 64-bit signed integer of the amd64 and arm64 ports, `rune` is
  `int32`; both are `Int` with explicit wrap-around.
* A function returning `(T, error)` returns a pair whose second component is
  `none` for a nil error.
* The library functions the emitter calls (`strconv.Atoi`, `strconv.Unquote`,
  `unicode/utf8`, `time.NewTicker`, `types.ParseURLRef`) and those that
  serialise the body of an event (`json.Marshal` with `reflect.StructTag.Get`
  and `strconv.FormatInt`) follow the Go 1.13 standard library and sdk-go v0.x
  sources.
-/

namespace Heartbeats

/-! ## Go values -/

/-- A Go byte, an unsigned 8-bit integer. -/
abbrev Byte := Fin 256

/-- A Go string: an immutable sequence of bytes. -/
abbrev GoString := List Byte

/-- Conversion `byte(x)` of a non-negative integer: the low eight bits. -/
def toByte (n : Nat) : Byte := Fin.ofNat n

/-- Wrap-around of a signed 32-bit integer (`int32`, `rune`). -/
def wrapInt32 (x : Int) : Int := (x + 2 ^ 31) % 2 ^ 32 - 2 ^ 31

/-- Wrap-around of a signed 64-bit integer (`int`, `int64`, `time.Duration`). -/
def wrapInt64 (x : Int) : Int := (x + 2 ^ 63) % 2 ^ 64 - 2 ^ 63

/-! ## `unicode/utf8` -/

/-- The constant `utf8.RuneError`, U+FFFD. -/
def RuneError : Int := 0xFFFD

/-- The constant `utf8.RuneSelf`: bytes below it are single-byte runes. -/
def RuneSelf : Int := 0x80

/-- The constant `utf8.MaxRune`. -/
def MaxRune : Int := 0x10FFFF

/-- The table `utf8.first`: information about the first byte of an encoding
(`0xF0` ASCII, `0xF1` invalid, otherwise accept-range index and size). -/
def first (b : Byte) : Nat :=
  if b.val < 0x80 then 0xF0
  else if b.val < 0xC2 then 0xF1
  else if b.val < 0xE0 then 0x02
  else if b.val = 0xE0 then 0x13
  else if b.val < 0xED then 0x03
  else if b.val = 0xED then 0x23
  else if b.val < 0xF0 then 0x03
  else if b.val = 0xF0 then 0x34
  else if b.val < 0xF4 then 0x04
  else if b.val = 0xF4 then 0x44
  else 0xF1

/-- The table `utf8.acceptRanges`: lowest and highest accepted second byte. -/
def acceptRanges (i : Nat) : Nat × Nat :=
  match i with
  | 0 => (0x80, 0xBF)
  | 1 => (0xA0, 0xBF)
  | 2 => (0x80, 0x9F)
  | 3 => (0x90, 0xBF)
  | 4 => (0x80, 0x8F)
  | _ => (0, 0)

/-- Byte `s[i]` of a string, read only at indices already checked in range. -/
def byteAt (s : GoString) (i : Nat) : Nat := (s.getD i 0).val

/-- The function `utf8.DecodeRuneInString`: first rune of `s` and its width in
bytes; `(RuneError, 0)` for the empty string, `(RuneError, 1)` for an invalid
encoding. -/
def DecodeRuneInString (s : GoString) : Int × Nat :=
  let n := s.length
  if n < 1 then (RuneError, 0) else
  let s0 := byteAt s 0
  let x := first (toByte s0)
  if x ≥ 0xF0 then
    (if x % 2 = 1 then RuneError else (s0 : Int), 1)
  else
    let sz := x % 8
    let accept := acceptRanges (x / 16)
    if n < sz then (RuneError, 1) else
    let s1 := byteAt s 1
    if s1 < accept.1 ∨ accept.2 < s1 then (RuneError, 1) else
    if sz ≤ 2 then ((((s0 &&& 0x1F) <<< 6 ||| (s1 &&& 0x3F) : Nat) : Int), 2) else
    let s2 := byteAt s 2
    if s2 < 0x80 ∨ 0xBF < s2 then (RuneError, 1) else
    if sz ≤ 3 then
      ((((s0 &&& 0x0F) <<< 12 ||| (s1 &&& 0x3F) <<< 6 ||| (s2 &&& 0x3F) : Nat) : Int), 3)
    else
    let s3 := byteAt s 3
    if s3 < 0x80 ∨ 0xBF < s3 then (RuneError, 1) else
    ((((s0 &&& 0x07) <<< 18 ||| (s1 &&& 0x3F) <<< 12 ||| (s2 &&& 0x3F) <<< 6
        ||| (s3 &&& 0x3F) : Nat) : Int), 4)

/-- The loop of `utf8.ValidString` from the current index on; `fuel` bounds the
number of iterations, each of which consumes at least one byte. -/
def validStringLoop : Nat → GoString → Bool
  | 0, _ => true
  | _ + 1, [] => true
  | fuel + 1, si :: rest =>
    if si.val < 0x80 then validStringLoop fuel rest else
    let x := first si
    if x = 0xF1 then false else
    let size := x % 8
    if (si :: rest).length < size then false else
    let accept := acceptRanges (x / 16)
    let c1 := byteAt (si :: rest) 1
    if c1 < accept.1 ∨ accept.2 < c1 then false
    else if size = 2 then validStringLoop fuel (rest.drop 1)
    else
      let c2 := byteAt (si :: rest) 2
      if c2 < 0x80 ∨ 0xBF < c2 then false
      else if size = 3 then validStringLoop fuel (rest.drop 2)
      else
        let c3 := byteAt (si :: rest) 3
        if c3 < 0x80 ∨ 0xBF < c3 then false
        else validStringLoop fuel (rest.drop 3)

/-- The function `utf8.ValidString`: `s` consists of valid UTF-8 encodings. -/
def ValidString (s : GoString) : Bool := validStringLoop s.length s

/-- The function `utf8.EncodeRune`: the UTF-8 encoding of rune `r`; invalid
runes and surrogates encode as `RuneError`. -/
def EncodeRune (r : Int) : GoString :=
  let i : Nat := (r % 2 ^ 32).toNat
  let enc3 (v : Nat) : GoString :=
    [toByte (0xE0 ||| (v >>> 12) % 256), toByte (0x80 ||| ((v >>> 6) % 256 &&& 0x3F)),
      toByte (0x80 ||| (v % 256 &&& 0x3F))]
  if i ≤ 0x7F then [toByte i]
  else if i ≤ 0x7FF then
    [toByte (0xC0 ||| (i >>> 6) % 256), toByte (0x80 ||| (i % 256 &&& 0x3F))]
  else if i > 0x10FFFF ∨ (0xD800 ≤ i ∧ i ≤ 0xDFFF) then enc3 0xFFFD
  else if i ≤ 0xFFFF then enc3 i
  else
    [toByte (0xF0 ||| (i >>> 18) % 256), toByte (0x80 ||| ((i >>> 12) % 256 &&& 0x3F)),
      toByte (0x80 ||| ((i >>> 6) % 256 &&& 0x3F)), toByte (0x80 ||| (i % 256 &&& 0x3F))]

/-- Bytes of a Go string literal: the UTF-8 encoding of its text. -/
def str (s : String) : GoString := s.toList.flatMap (fun c => EncodeRune (c.toNat : Int))

/-! ## `strconv` -/

/-- The errors of package `strconv`. -/
inductive StrconvError where
  | ErrSyntax
  | ErrRange
  deriving DecidableEq

/-- The function `strconv.unhex`. -/
def unhex (b : Byte) : Option Int :=
  let c := b.val
  if 48 ≤ c ∧ c ≤ 57 then some ((c : Int) - 48)
  else if 97 ≤ c ∧ c ≤ 102 then some ((c : Int) - 97 + 10)
  else if 65 ≤ c ∧ c ≤ 70 then some ((c : Int) - 65 + 10)
  else none

/-- The loop `v = v<<4 | x` of `UnquoteChar` over the hexadecimal digits `ds`,
in `int32` arithmetic. -/
def hexDigits : GoString → Int → Option Int
  | [], v => some v
  | d :: ds, v =>
    match unhex d with
    | none => none
    | some x => hexDigits ds (wrapInt32 (v * 16 + x))

/-- The loop `v = (v << 3) | x` of `UnquoteChar` over the two remaining octal
digits. -/
def octDigits : GoString → Int → Option Int
  | [], v => some v
  | d :: ds, v =>
    let x : Int := (d.val : Int) - 48
    if x < 0 ∨ x > 7 then none else octDigits ds (v * 8 + x)

/-- Number of hexadecimal digits after `\x`, `\u` and `\U` in
`strconv.UnquoteChar`. -/
def hexLen (c : Byte) : Nat := if c = 120 then 2 else if c = 117 then 4 else 8

/-- The cases `\x`, `\u` and `\U` of `strconv.UnquoteChar`. -/
def unquoteHex (c : Byte) (s : GoString) : Except StrconvError (Int × Bool × GoString) :=
  if s.length < hexLen c then .error .ErrSyntax else
  match hexDigits (s.take (hexLen c)) 0 with
  | none => .error .ErrSyntax
  | some v =>
    if c = 120 then .ok (v, false, s.drop (hexLen c))
    else if v > MaxRune then .error .ErrSyntax
    else .ok (v, true, s.drop (hexLen c))

/-- The octal case of `strconv.UnquoteChar`: the digit `c` and two more. -/
def unquoteOctal (c : Byte) (s : GoString) : Except StrconvError (Int × Bool × GoString) :=
  if s.length < 2 then .error .ErrSyntax else
  match octDigits (s.take 2) ((c.val : Int) - 48) with
  | none => .error .ErrSyntax
  | some v =>
    if v > 255 then .error .ErrSyntax else .ok (v, false, s.drop 2)

/-- The escape sequences of `strconv.UnquoteChar`, its "hard case": `c` is the
byte after the backslash (`s[1]`) and `s` the text after it (`s[2:]`). -/
def unquoteEscape (c : Byte) (s : GoString) (quote : Byte) :
    Except StrconvError (Int × Bool × GoString) :=
  if c = 97 then .ok (7, false, s)
  else if c = 98 then .ok (8, false, s)
  else if c = 102 then .ok (12, false, s)
  else if c = 110 then .ok (10, false, s)
  else if c = 114 then .ok (13, false, s)
  else if c = 116 then .ok (9, false, s)
  else if c = 118 then .ok (11, false, s)
  else if c = 120 ∨ c = 117 ∨ c = 85 then unquoteHex c s
  else if 48 ≤ c.val ∧ c.val ≤ 55 then unquoteOctal c s
  else if c = 92 then .ok (92, false, s)
  else if c = 39 ∨ c = 34 then
    if c ≠ quote then .error .ErrSyntax else .ok ((c.val : Int), false, s)
  else .error .ErrSyntax

/-- The function `strconv.UnquoteChar`: decodes the first character or escape
sequence of `s`, returning its value, whether it is a multibyte rune, and the
remainder of the string. -/
def UnquoteChar (s : GoString) (quote : Byte) :
    Except StrconvError (Int × Bool × GoString) :=
  match s with
  | [] => .error .ErrSyntax
  | c :: rest =>
    if c = quote ∧ (quote = 39 ∨ quote = 34) then .error .ErrSyntax
    else if c.val ≥ 0x80 then
      let (r, size) := DecodeRuneInString s
      .ok (r, true, s.drop size)
    else if c ≠ 92 then .ok ((c.val : Int), false, rest)
    else
      match rest with
      | [] => .error .ErrSyntax
      | c :: s => unquoteEscape c s quote

/-- The decoding loop of `strconv.Unquote` over the text between the quotes;
`fuel` bounds the number of iterations, each of which consumes at least one
byte. -/
def unquoteLoop (quote : Byte) : Nat → GoString → GoString → GoString × Option StrconvError
  | 0, _, buf => (buf, none)
  | _ + 1, [], buf => (buf, none)
  | fuel + 1, c :: cs, buf =>
    match UnquoteChar (c :: cs) quote with
    | .error e => ([], some e)
    | .ok (r, multibyte, ss) =>
      let buf := if r < RuneSelf ∨ ¬ multibyte then buf ++ [toByte (r % 256).toNat]
        else buf ++ EncodeRune r
      if quote = 39 ∧ ss.length ≠ 0 then ([], some .ErrSyntax)
      else unquoteLoop quote fuel ss buf

/-- The function `strconv.Unquote`: interprets `s` as a single-quoted,
double-quoted or backquoted Go string literal and returns the string it
quotes. Every error return carries the empty string. -/
def Unquote (s : GoString) : GoString × Option StrconvError :=
  let n := s.length
  if n < 2 then ([], some .ErrSyntax) else
  let quote := s.getD 0 0
  if quote ≠ s.getD (n - 1) 0 then ([], some .ErrSyntax) else
  let s := (s.drop 1).take (n - 2)
  if quote = 96 then
    if s.contains 96 then ([], some .ErrSyntax)
    else if s.contains 13 then (s.filter (fun b => b ≠ 13), none)
    else (s, none)
  else if quote ≠ 34 ∧ quote ≠ 39 then ([], some .ErrSyntax)
  else if s.contains 10 then ([], some .ErrSyntax)
  else
    let trivial : Bool :=
      if ¬ s.contains 92 ∧ ¬ s.contains quote then
        if quote = 34 then ValidString s
        else
          let (r, size) := DecodeRuneInString s
          decide (size = s.length ∧ (r ≠ RuneError ∨ size ≠ 1))
      else false
    if trivial then (s, none) else unquoteLoop quote s.length s []

/-- The digit loop of the fast path of `strconv.Atoi`. -/
def atoiDigits : GoString → Int → Option Int
  | [], n => some n
  | ch :: rest, n =>
    let d := (ch.val + 256 - 48) % 256
    if d > 9 then none else atoiDigits rest (n * 10 + d)

/-- The digit loop of `strconv.ParseUint` in base 10 with bit size 64, on the
`uint64` accumulator `n`. -/
def parseUintLoop : GoString → Nat → Nat × Option StrconvError
  | [], n => (n, none)
  | c :: cs, n =>
    let lower := c.val ||| 0x20
    let d : Option Nat :=
      if 48 ≤ c.val ∧ c.val ≤ 57 then some (c.val - 48)
      else if 97 ≤ lower ∧ lower ≤ 122 then some (lower - 97 + 10)
      else none
    match d with
    | none => (0, some .ErrSyntax)
    | some d =>
      if d ≥ 10 then (0, some .ErrSyntax)
      else if n ≥ (2 ^ 64 - 1) / 10 + 1 then (2 ^ 64 - 1, some .ErrRange)
      else
        let n := (n * 10) % 2 ^ 64
        let n1 := (n + d) % 2 ^ 64
        if n1 < n ∨ n1 > 2 ^ 64 - 1 then (2 ^ 64 - 1, some .ErrRange)
        else parseUintLoop cs n1

/-- The function `strconv.ParseUint(s, 10, 0)`. -/
def ParseUint (s : GoString) : Nat × Option StrconvError :=
  if s = [] then (0, some .ErrSyntax) else parseUintLoop s 0

/-- The function `strconv.ParseInt(s, 10, 0)`. -/
def ParseInt (s : GoString) : Int × Option StrconvError :=
  if s = [] then (0, some .ErrSyntax) else
  let neg := s.head? = some 45
  let s := if s.head? = some 43 ∨ s.head? = some 45 then s.drop 1 else s
  let (un, err) := ParseUint s
  if err = some .ErrSyntax then (0, err) else
  let cutoff : Nat := 2 ^ 63
  if ¬ neg ∧ un ≥ cutoff then ((cutoff : Int) - 1, some .ErrRange)
  else if neg ∧ un > cutoff then (-(cutoff : Int), some .ErrRange)
  else
    let n := wrapInt64 un
    (if neg then wrapInt64 (-n) else n, none)

/-- The function `strconv.Atoi` with 64-bit `int`. -/
def Atoi (s : GoString) : Int × Option StrconvError :=
  let sLen := s.length
  if 0 < sLen ∧ sLen < 19 then
    let signed := s.head? = some 45 ∨ s.head? = some 43
    let digits := if signed then s.drop 1 else s
    if signed ∧ digits.length < 1 then (0, some .ErrSyntax) else
    match atoiDigits digits 0 with
    | none => (0, some .ErrSyntax)
    | some n => (if s.head? = some 45 then -n else n, none)
  else ParseInt s

/-! ## `time` and `types` -/

/-- The constant `time.Second` in nanoseconds, the unit of `time.Duration`. -/
def Second : Int := 1000000000

/-- The precondition of `time.NewTicker(d)`: it panics with "non-positive
interval for NewTicker" unless `d > 0`. -/
def NewTickerPanics (d : Int) : Bool := decide (d ≤ 0)

/-- The function `types.ParseURLRef` of sdk-go: `nil` for the empty string and
for a string `url.Parse` rejects, the parsed reference otherwise. The result
of `net/url.Parse` is the argument `urlParse`. -/
def ParseURLRef {U : Type} (urlParse : GoString → Option U) (u : GoString) : Option U :=
  if u = [] then none else urlParse u

/-! ## The emitter -/

/-- The struct `Heartbeat`, the body of every event. -/
structure Heartbeat where
  Sequence : Int
  Label : GoString
  deriving DecidableEq

/-! ## `reflect` and `encoding/json` -/

/-- A field of a struct type as `reflect` presents it: its name and its tag. -/
structure StructField where
  Name : GoString
  Tag : GoString

/-- The value of a struct field, for the two kinds of field of `Heartbeat`. -/
inductive FieldValue where
  | int (i : Int)
  | string (s : GoString)

/-- The type `Heartbeat` as declared (lines 35-38): the fields `Sequence` and
`Label` with their tags. -/
def HeartbeatType : List StructField :=
  [{ Name := str "Sequence", Tag := str "json:\"id\"" },
    { Name := str "Label", Tag := str "json:\"label\"" }]

/-- The values of the fields of a heartbeat, in declaration order. -/
def Heartbeat.values (hb : Heartbeat) : List FieldValue :=
  [.int hb.Sequence, .string hb.Label]

/-- The scan for the closing quote of a tag value in `reflect.StructTag.Lookup`,
from index `i`: a backslash skips the byte after it; `none` when the tag ends
first. `fuel` bounds the number of steps, each of which advances `i`. -/
def scanQuoted (tag : GoString) : Nat → Nat → Option Nat
  | 0, _ => none
  | fuel + 1, i =>
    if i < tag.length ∧ tag.getD i 0 ≠ 34 then
      scanQuoted tag fuel (if tag.getD i 0 = 92 then i + 2 else i + 1)
    else if i ≥ tag.length then none
    else some i

/-- The loop of `reflect.StructTag.Lookup` over the `name:"value"` pairs of a
tag; `fuel` bounds the number of pairs. -/
def lookupLoop (key : GoString) : Nat → GoString → Option GoString
  | 0, _ => none
  | fuel + 1, tag =>
    let tag := tag.dropWhile (fun c => c = 32)
    if tag = [] then none else
    let i := (tag.takeWhile
      (fun c => decide (c.val > 32 ∧ c ≠ 58 ∧ c ≠ 34 ∧ c ≠ 127))).length
    if i = 0 ∨ i + 1 ≥ tag.length ∨ tag.getD i 0 ≠ 58 ∨ tag.getD (i + 1) 0 ≠ 34 then none
    else
      let name := tag.take i
      let rest := tag.drop (i + 1)
      match scanQuoted rest (rest.length + 1) 1 with
      | none => none
      | some j =>
        if key = name then
          match Unquote (rest.take (j + 1)) with
          | (value, none) => some value
          | (_, some _) => none
        else lookupLoop key fuel (rest.drop (j + 1))

/-- The method `reflect.StructTag.Get`: the value of `key` in the tag, the
empty string when there is none. -/
def StructTagGet (tag key : GoString) : GoString :=
  (lookupLoop key (tag.length + 1) tag).getD []

/-- The function `parseTag` of `encoding/json`: the name before the first
comma and the options after it. -/
def parseTag (tag : GoString) : GoString × GoString :=
  (tag.takeWhile (fun c => c ≠ 44), (tag.dropWhile (fun c => c ≠ 44)).drop 1)

/-- The function `isValidTag` of `encoding/json` on ASCII names: not empty, and
made of letters, digits and the punctuation it lists. The result is `none` for
a name with a byte outside ASCII, whose class the Unicode tables decide. -/
def isValidTag (s : GoString) : Option Bool :=
  if s = [] then some false
  else if s.any (fun c => decide (c.val ≥ 0x80)) then none
  else
    some (s.all (fun c =>
      (str "!#$%&()*+-./:<=>?@[]^_\x7b|\x7d~ ").contains c
        || decide (65 ≤ c.val ∧ c.val ≤ 90) || decide (97 ≤ c.val ∧ c.val ≤ 122)
        || decide (48 ≤ c.val ∧ c.val ≤ 57)))

/-- The JSON name `typeFields` of `encoding/json` gives a field without
options: nothing for an unexported field and for the tag `-`, the name in the
tag when it is valid, the name of the field otherwise. The outer result is
`none` where this model does not follow the library: a field name that does
not start with an ASCII letter or underscore, a tag with options, a tag name
outside ASCII. -/
def fieldName (f : StructField) : Option (Option GoString) :=
  match f.Name with
  | [] => none
  | c :: _ =>
    if (97 ≤ c.val ∧ c.val ≤ 122) ∨ c = 95 then some none
    else if ¬ (65 ≤ c.val ∧ c.val ≤ 90) then none
    else
      let tag := StructTagGet f.Tag (str "json")
      if tag = str "-" then some none
      else if (parseTag tag).2 ≠ [] ∨ tag.contains 44 then none
      else
        match isValidTag (parseTag tag).1 with
        | none => none
        | some valid => some (some (if valid then (parseTag tag).1 else f.Name))

/-- The JSON names of the fields of a struct type, `none` outside the model. -/
def fieldNames : List StructField → Option (List (Option GoString))
  | [] => some []
  | f :: fs =>
    match fieldName f, fieldNames fs with
    | some n, some ns => some (n :: ns)
    | _, _ => none

/-- The digits of `strconv.FormatInt` in base 10 (`formatBits`): `u` is written
in front of `acc`; `fuel` bounds the number of digits. -/
def formatBits : Nat → Nat → GoString → GoString
  | 0, _, acc => acc
  | fuel + 1, u, acc =>
    if u ≥ 10 then formatBits fuel (u / 10) (toByte (48 + u % 10) :: acc)
    else toByte (48 + u) :: acc

/-- The function `strconv.FormatInt(i, 10)`. -/
def FormatInt (i : Int) : GoString :=
  if i < 0 then 45 :: formatBits ((-i).toNat + 1) (-i).toNat []
  else formatBits (i.toNat + 1) i.toNat []

/-- The digit `hex[n]` of `encoding/json`. -/
def hexDigit (n : Nat) : Byte := (str "0123456789abcdef").getD n 0

/-- The table `htmlSafeSet` of `encoding/json`: the ASCII bytes written as they
are, all from the space on except the double quote, `&`, `<`, `>` and the
backslash. -/
def htmlSafeSet (b : Byte) : Bool :=
  decide (0x20 ≤ b.val ∧ b.val < 0x80 ∧ b ≠ 34 ∧ b ≠ 38 ∧ b ≠ 60 ∧ b ≠ 62 ∧ b ≠ 92)

/-- The escape `encodeState.string` writes for an ASCII byte that is not in
`htmlSafeSet`. -/
def escapeByte (b : Byte) : GoString :=
  if b = 92 ∨ b = 34 then [92, b]
  else if b = 10 then [92, 110]
  else if b = 13 then [92, 114]
  else if b = 9 then [92, 116]
  else str "\\u00" ++ [hexDigit (b.val >>> 4), hexDigit (b.val &&& 0xF)]

/-- The loop of `encodeState.string` with HTML escaping, between the quotes:
safe ASCII and valid multibyte runes are copied, other ASCII is escaped, an
invalid byte becomes the escape of U+FFFD, and U+2028 and U+2029 are escaped. `fuel`
bounds the number of iterations, each of which consumes at least one byte. -/
def encodeStringLoop : Nat → GoString → GoString
  | 0, _ => []
  | _ + 1, [] => []
  | fuel + 1, b :: rest =>
    if b.val < 0x80 then
      (if htmlSafeSet b then [b] else escapeByte b) ++ encodeStringLoop fuel rest
    else
      let c := (DecodeRuneInString (b :: rest)).1
      let size := (DecodeRuneInString (b :: rest)).2
      if c = RuneError ∧ size = 1 then str "\\ufffd" ++ encodeStringLoop fuel rest
      else if c = 0x2028 ∨ c = 0x2029 then
        str "\\u202" ++ [hexDigit (c.toNat &&& 0xF)] ++ encodeStringLoop fuel (rest.drop (size - 1))
      else (b :: rest).take size ++ encodeStringLoop fuel (rest.drop (size - 1))

/-- The method `encodeState.string` of `encoding/json` as `json.Marshal` calls
it: the JSON string literal for `s`. -/
def encodeString (s : GoString) : GoString := [34] ++ encodeStringLoop s.length s ++ [34]

/-- The function `json.HTMLEscape` on a field name without U+2028 and U+2029:
`<`, `>` and `&` are written as escapes. -/
def HTMLEscape (s : GoString) : GoString :=
  s.flatMap (fun c =>
    if c = 60 ∨ c = 62 ∨ c = 38 then
      str "\\u00" ++ [hexDigit (c.val >>> 4), hexDigit (c.val &&& 0xF)]
    else [c])

/-- The encoders of `encoding/json` for an `int` and a `string` field. -/
def encodeValue : FieldValue → GoString
  | .int i => FormatInt i
  | .string s => encodeString s

/-- The loop of `structEncoder.encode`: before each field the byte `next`
(the opening brace, then a comma), the quoted name and a colon, and the value;
at the end `{}` when no field was written, the closing brace otherwise. -/
def structEncoderLoop : List (Option GoString × FieldValue) → Byte → GoString
  | [], next => if next = 123 then str "\x7b\x7d" else [125]
  | (none, _) :: fs, next => structEncoderLoop fs next
  | (some name, v) :: fs, next =>
    [next] ++ ([34] ++ HTMLEscape name ++ str "\":") ++ encodeValue v
      ++ structEncoderLoop fs 44

/-- The function `json.Marshal` on a struct without embedded fields: the JSON
object of its fields. The result is `none` where this model does not follow
the library: where `fieldNames` does not, and for two fields of the same JSON
name, between which the library chooses. -/
def Marshal (t : List StructField) (values : List FieldValue) : Option GoString :=
  match fieldNames t with
  | none => none
  | some names =>
    if ¬ (names.filterMap id).Nodup ∨ names.length ≠ values.length then none
    else some (structEncoderLoop (names.zip values) 123)

/-- The body of an event as the delivery capability serialises it:
`json.Marshal(hb)`. -/
def Heartbeat.MarshalJSON (hb : Heartbeat) : Option GoString :=
  Marshal HeartbeatType hb.values

/-! ## Events and the loop -/

/-- A value of the extensions map, of type `interface{}`. -/
inductive ExtValue where
  | int (n : Int)
  | string (s : GoString)
  | bool (b : Bool)
  deriving DecidableEq

/-- The struct `cloudevents.EventContextV02` after `AsV02()`, which sets the
spec version; the fields the emitter leaves at their zero value are omitted.
`Source` is the dereferenced result of `types.ParseURLRef`. -/
structure EventContextV02 (U : Type) where
  SpecVersion : GoString
  Type_ : GoString
  Source : U
  Extensions : List (GoString × ExtValue)
  deriving DecidableEq

/-- The struct `cloudevents.Event` built in each cycle; `Data` is the value of
`*hb` when the event is handed to `Send`. -/
structure Event (U : Type) where
  Context : EventContextV02 U
  Data : Heartbeat
  deriving DecidableEq

/-- The extensions map literal attached to every event. -/
def extensions : List (GoString × ExtValue) :=
  [(str "the", .int 42), (str "heart", .string (str "yes")), (str "beats", .bool true)]

/-- The package-level flag variables after `flag.Parse()`. -/
structure Flags where
  eventSource : GoString
  eventType : GoString
  sink : GoString
  label : GoString
  periodStr : GoString

/-- The flag defaults registered in `init`. -/
def defaultFlags : Flags :=
  { eventSource := [], eventType := str "dev.knative.eventing.samples.heartbeat",
    sink := [], label := [], periodStr := str "5" }

/-- The struct `envConfig` filled by `envconfig.Process`. -/
structure envConfig where
  Sink : GoString
  Name : GoString
  Namespace : GoString

/-- The value of `period` (lines 85-90), in nanoseconds: `p` seconds when
`periodStr` is an integer `p`, five seconds otherwise; the product is taken
in `int64`. -/
def period (periodStr : GoString) : Int :=
  match Atoi periodStr with
  | (_, some _) => wrapInt64 (5 * Second)
  | (p, none) => wrapInt64 (p * Second)

/-- The value of `eventSource` after lines 92-95: the flag when it is not
empty, otherwise the default derived from the namespace and name of the pod. -/
def eventSource (flag : GoString) (env : envConfig) : GoString :=
  if flag = [] then
    str "https://knative.dev/eventing-contrib/cmd/heartbeats/#" ++ env.Namespace ++ str "/"
      ++ env.Name
  else flag

/-- The value of `label` after lines 97-99: a label starting with a double
quote is replaced by the first result of `strconv.Unquote`, whose error is
discarded. -/
def label (flag : GoString) : GoString :=
  match flag with
  | [] => flag
  | c :: _ => if c = 34 then (Unquote flag).1 else flag

/-- The heartbeat `hb` created before the loop (lines 100-103). -/
def hb (labelFlag : GoString) : Heartbeat := { Sequence := 0, Label := label labelFlag }

/-- What the process does that can be seen from outside, in order. -/
inductive Obs (U : Type) where
  | log (msg : GoString)
  | send (event : Event U)
  | tick
  deriving DecidableEq

/-- Why the process panicked. -/
inductive Panic where
  | nonPositiveInterval
  | nilDereference
  deriving DecidableEq

/-- Where the process stands after the simulated part of its run. -/
inductive Status where
  | running
  | exited (code : Nat)
  | panicked (p : Panic)
  deriving DecidableEq

/-- State of the emission loop: the heartbeat and what has been observed. -/
structure LoopState (U : Type) where
  hb : Heartbeat
  trace : List (Obs U)
  deriving DecidableEq

/-- One pass through the body of the loop (lines 106-125): increment the
counter, build the event, send it, log a failure, wait for the next tick.
`sendResult` is the error `c.Send` returns, `none` for nil. The result is
`.error` when building the event dereferences a nil `*URLRef`. -/
def iteration {U : Type} (urlParse : GoString → Option U) (eventType eventSource : GoString)
    (sendResult : Option GoString) (st : LoopState U) : Except (LoopState U) (LoopState U) :=
  let hb : Heartbeat := { st.hb with Sequence := wrapInt64 (st.hb.Sequence + 1) }
  match ParseURLRef urlParse eventSource with
  | none => .error { hb := hb, trace := st.trace }
  | some source =>
    let event : Event U :=
      { Context :=
          { SpecVersion := str "0.2", Type_ := eventType, Source := source,
            Extensions := extensions }
        Data := hb }
    let trace := st.trace ++ [Obs.send event]
    let trace :=
      match sendResult with
      | some err => trace ++ [Obs.log (str "failed to send cloudevent: " ++ err)]
      | none => trace
    .ok { hb := hb, trace := trace ++ [Obs.tick] }

/-- The loop `for { ... }`, run for one iteration per element of
`sendResults`, the results of the successive calls of `c.Send`. -/
def loop {U : Type} (urlParse : GoString → Option U) (eventType eventSource : GoString) :
    List (Option GoString) → LoopState U → Except (LoopState U) (LoopState U)
  | [], st => .ok st
  | r :: rs, st =>
    match iteration urlParse eventType eventSource r st with
    | .error st => .error st
    | .ok st => loop urlParse eventType eventSource rs st

/-- Everything `main` takes from outside: the parsed flags, the result of
`envconfig.Process`, the error of `kncloudevents.NewDefaultClient` for a sink,
`net/url.Parse`, and the results of the successive calls of `c.Send`. -/
structure World (U : Type) where
  flags : Flags
  env : Except GoString envConfig
  newClient : GoString → Option GoString
  urlParse : GoString → Option U
  sendResults : List (Option GoString)

/-- A run of `main`: its status, the heartbeat once created, and the trace. -/
structure Run (U : Type) where
  status : Status
  hb : Option Heartbeat
  trace : List (Obs U)
  deriving DecidableEq

/-- The function `main`, with the loop run for `w.sendResults.length`
iterations. -/
def main {U : Type} (w : World U) : Run U :=
  match w.env with
  | .error err =>
    { status := .exited 1, hb := none,
      trace := [Obs.log (str "[ERROR] Failed to process env var: " ++ err)] }
  | .ok env =>
    let sink := if env.Sink ≠ [] then env.Sink else w.flags.sink
    match w.newClient sink with
    | some err =>
      { status := .exited 1, hb := none,
        trace := [Obs.log (str "failed to create client: " ++ err)] }
    | none =>
      let period := period w.flags.periodStr
      let source := eventSource w.flags.eventSource env
      let logs : List (Obs U) :=
        if w.flags.eventSource = [] then [Obs.log (str "Heartbeats Source: " ++ source)] else []
      let hb := hb w.flags.label
      if NewTickerPanics period then
        { status := .panicked .nonPositiveInterval, hb := some hb, trace := logs }
      else
        match loop w.urlParse w.flags.eventType source w.sendResults
            { hb := hb, trace := logs } with
        | .error st => { status := .panicked .nilDereference, hb := some st.hb, trace := st.trace }
        | .ok st => { status := .running, hb := some st.hb, trace := st.trace }

/-- The events handed to `c.Send`, in order. -/
def sent {U : Type} : List (Obs U) → List (Event U)
  | [] => []
  | Obs.send e :: t => e :: sent t
  | _ :: t => sent t

/-- Number of calls of `c.Send` in a trace. -/
def sends {U : Type} (t : List (Obs U)) : Nat := (sent t).length

/-- Number of ticks received from `ticker.C` in a trace. -/
def ticks {U : Type} : List (Obs U) → Nat
  | [] => 0
  | Obs.tick :: t => ticks t + 1
  | _ :: t => ticks t

/-- The event of cycle `n` for a parsed source and a label. -/
def eventOf {U : Type} (eventType : GoString) (source : U) (label : GoString) (n : Int) :
    Event U :=
  { Context :=
      { SpecVersion := str "0.2", Type_ := eventType, Source := source,
        Extensions := extensions }
    Data := { Sequence := n, Label := label } }

/-- The end-to-end scenario of the specification: label `"test"`, source
`https://example/1`, type `demo.type`, period one second, and deliveries with
the results `rs`. Its URL parser accepts the source of the scenario and no
other string; `net/url` accepts that source, and rejects the string `:`
("missing protocol scheme") that stands for a source that does not parse. -/
def scenario (rs : List (Option GoString)) : World GoString :=
  { flags :=
      { eventSource := str "https://example/1", eventType := str "demo.type", sink := [],
        label := str "\"test\"", periodStr := str "1" }
    env := .ok { Sink := str "http://sink", Name := str "pod-7", Namespace := str "ns-a" }
    newClient := fun _ => none
    urlParse := fun u => if u = str "https://example/1" then some u else none
    sendResults := rs }

/-! ## Closed forms used by the proofs -/

/-- Value of the counter after `k` increments from `s`. -/
def seqAfter (s : Int) : Nat → Int
  | 0 => s
  | k + 1 => seqAfter (wrapInt64 (s + 1)) k

/-- Observations of one cycle: the send, the log line of a failure, the tick. -/
def cycleTrace {U : Type} (e : Event U) (r : Option GoString) : List (Obs U) :=
  match r with
  | some err => [Obs.send e, Obs.log (str "failed to send cloudevent: " ++ err), Obs.tick]
  | none => [Obs.send e, Obs.tick]

/-- Observations of successive cycles starting with counter value `s`. -/
def cyclesTrace {U : Type} (eventType : GoString) (u : U) (label : GoString) :
    Int → List (Option GoString) → List (Obs U)
  | _, [] => []
  | s, r :: rs =>
    cycleTrace (eventOf eventType u label (wrapInt64 (s + 1))) r
      ++ cyclesTrace eventType u label (wrapInt64 (s + 1)) rs

/-- The log lines of startup: the derived source, when it is derived. -/
def startupLogs {U : Type} (flags : Flags) (env : envConfig) : List (Obs U) :=
  if flags.eventSource = [] then
    [Obs.log (str "Heartbeats Source: " ++ eventSource flags.eventSource env)]
  else []

/-- The sink the client is created for: the environment overrides the flag. -/
def sinkOf (flags : Flags) (env : envConfig) : GoString :=
  if env.Sink ≠ [] then env.Sink else flags.sink

/-- Timing of a trace: a delivery starts when as many ticks have been received
as deliveries were started before it, and a tick is received when one more
delivery than ticks has been started. -/
def Timed {U : Type} (t : List (Obs U)) : Prop :=
  (∀ p e, p ++ [Obs.send e] <+: t → ticks p = sends p) ∧
    (∀ p, p ++ [Obs.tick] <+: t → sends p = ticks p + 1)

/-- The number a string of decimal digits denotes. -/
def decimalValue (s : GoString) : Int := s.foldl (fun n c => n * 10 + ((c.val : Int) - 48)) 0

/-! ## Wrap-around arithmetic -/

theorem wrapInt64_of_range (x : Int) (h1 : -2 ^ 63 ≤ x) (h2 : x < 2 ^ 63) : wrapInt64 x = x := by
  unfold wrapInt64
  norm_num at h1 h2 ⊢
  omega

theorem wrapInt64_succ (a : Int) : wrapInt64 (wrapInt64 a + 1) = wrapInt64 (a + 1) := by
  unfold wrapInt64
  norm_num
  omega

theorem seqAfter_wrap (a : Int) (k : Nat) : seqAfter (wrapInt64 a) k = wrapInt64 (a + k) := by
  induction k generalizing a with
  | zero => simp [seqAfter]
  | succ k ih =>
    simp only [seqAfter, wrapInt64_succ, ih]
    congr 1
    push_cast
    ring

theorem seqAfter_zero (k : Nat) : seqAfter 0 k = wrapInt64 k := by
  have h := seqAfter_wrap 0 k
  have h0 : wrapInt64 0 = 0 := by decide
  rw [h0] at h
  simpa using h

/-! ## The loop in closed form -/

theorem iteration_ok {U : Type} (urlParse : GoString → Option U) (eventType src : GoString)
    (u : U) (h : ParseURLRef urlParse src = some u) (r : Option GoString) (st : LoopState U) :
    iteration urlParse eventType src r st = .ok
      { hb := { Sequence := wrapInt64 (st.hb.Sequence + 1), Label := st.hb.Label }
        trace := st.trace ++
          cycleTrace (eventOf eventType u st.hb.Label (wrapInt64 (st.hb.Sequence + 1))) r } := by
  cases r <;> simp [iteration, h, cycleTrace, eventOf]

theorem iteration_nil {U : Type} (urlParse : GoString → Option U) (eventType src : GoString)
    (h : ParseURLRef urlParse src = none) (r : Option GoString) (st : LoopState U) :
    iteration urlParse eventType src r st = .error
      { hb := { Sequence := wrapInt64 (st.hb.Sequence + 1), Label := st.hb.Label }
        trace := st.trace } := by
  simp [iteration, h]

theorem loop_ok {U : Type} (urlParse : GoString → Option U) (eventType src : GoString)
    (u : U) (h : ParseURLRef urlParse src = some u) (rs : List (Option GoString)) :
    ∀ st : LoopState U, loop urlParse eventType src rs st = .ok
      { hb := { Sequence := seqAfter st.hb.Sequence rs.length, Label := st.hb.Label }
        trace := st.trace ++ cyclesTrace eventType u st.hb.Label st.hb.Sequence rs } := by
  induction rs with
  | nil => intro st; simp [loop, seqAfter, cyclesTrace]
  | cons r rs ih =>
    intro st
    simp only [loop, iteration_ok urlParse eventType src u h, ih, List.length_cons, seqAfter,
      cyclesTrace, List.append_assoc]

theorem sent_append {U : Type} (a b : List (Obs U)) : sent (a ++ b) = sent a ++ sent b := by
  induction a with
  | nil => rfl
  | cons x a ih => cases x <;> simp [sent, ih]

theorem ticks_append {U : Type} (a b : List (Obs U)) : ticks (a ++ b) = ticks a + ticks b := by
  induction a with
  | nil => simp [ticks]
  | cons x a ih =>
    cases x
    · simp [ticks, ih]
    · simp [ticks, ih]
    · simp [ticks, ih]
      omega

theorem sends_append {U : Type} (a b : List (Obs U)) : sends (a ++ b) = sends a + sends b := by
  simp [sends, sent_append]

theorem sent_cycleTrace {U : Type} (e : Event U) (r : Option GoString) :
    sent (cycleTrace e r) = [e] := by
  cases r <;> rfl

theorem sent_cyclesTrace {U : Type} (eventType : GoString) (u : U) (l : GoString)
    (rs : List (Option GoString)) : ∀ (s : Int) (i : Nat), i < rs.length →
      (sent (cyclesTrace eventType u l s rs))[i]? =
        some (eventOf eventType u l (seqAfter s (i + 1))) := by
  induction rs with
  | nil => intro s i hi; simp at hi
  | cons r rs ih =>
    intro s i hi
    simp only [cyclesTrace, sent_append, sent_cycleTrace, List.singleton_append]
    cases i with
    | zero => simp [seqAfter]
    | succ i =>
      simp only [List.length_cons, Nat.add_lt_add_iff_right] at hi
      simp only [List.getElem?_cons_succ, ih _ i hi, seqAfter]

theorem sent_cyclesTrace_length {U : Type} (eventType : GoString) (u : U) (l : GoString)
    (rs : List (Option GoString)) : ∀ s : Int,
      (sent (cyclesTrace eventType u l s rs)).length = rs.length := by
  induction rs with
  | nil => intro s; rfl
  | cons r rs ih =>
    intro s
    simp [cyclesTrace, sent_append, sent_cycleTrace, ih]

theorem sent_cyclesTrace_outcomes {U : Type} (eventType : GoString) (u : U) (l : GoString)
    (rs : List (Option GoString)) : ∀ (rs2 : List (Option GoString)) (s : Int),
      rs.length = rs2.length →
      sent (cyclesTrace eventType u l s rs) = sent (cyclesTrace eventType u l s rs2) := by
  induction rs with
  | nil =>
    intro rs2 s h
    cases rs2 with
    | nil => rfl
    | cons r2 rs2 => simp at h
  | cons r rs ih =>
    intro rs2 s h
    cases rs2 with
    | nil => simp at h
    | cons r2 rs2 =>
      simp only [List.length_cons, Nat.add_right_cancel_iff] at h
      simp only [cyclesTrace, sent_append, sent_cycleTrace, ih rs2 _ h]

theorem sent_startupLogs {U : Type} (flags : Flags) (env : envConfig) :
    sent (startupLogs flags env : List (Obs U)) = [] := by
  unfold startupLogs
  split <;> rfl

theorem ticks_startupLogs {U : Type} (flags : Flags) (env : envConfig) :
    ticks (startupLogs flags env : List (Obs U)) = 0 := by
  unfold startupLogs
  split <;> rfl

theorem main_started {U : Type} (w : World U) (env : envConfig) (henv : w.env = .ok env)
    (hclient : w.newClient (sinkOf w.flags env) = none)
    (hperiod : 0 < period w.flags.periodStr) :
    main w =
      match loop w.urlParse w.flags.eventType (eventSource w.flags.eventSource env)
          w.sendResults { hb := hb w.flags.label, trace := startupLogs w.flags env } with
      | .error st => { status := .panicked .nilDereference, hb := some st.hb, trace := st.trace }
      | .ok st => { status := .running, hb := some st.hb, trace := st.trace } := by
  have hp : NewTickerPanics (period w.flags.periodStr) = false := by
    simp [NewTickerPanics, hperiod]
  unfold sinkOf at hclient
  simp only [main, henv, hclient, hp, startupLogs]
  rfl

theorem main_running {U : Type} (w : World U) (env : envConfig) (u : U) (henv : w.env = .ok env)
    (hclient : w.newClient (sinkOf w.flags env) = none)
    (hperiod : 0 < period w.flags.periodStr)
    (hsource : ParseURLRef w.urlParse (eventSource w.flags.eventSource env) = some u) :
    main w =
      { status := .running
        hb := some { Sequence := wrapInt64 w.sendResults.length, Label := label w.flags.label }
        trace := startupLogs w.flags env ++
          cyclesTrace w.flags.eventType u (label w.flags.label) 0 w.sendResults } := by
  rw [main_started w env henv hclient hperiod, loop_ok _ _ _ u hsource]
  simp [hb, seqAfter_zero]

theorem main_sent {U : Type} (w : World U) (env : envConfig) (u : U) (henv : w.env = .ok env)
    (hclient : w.newClient (sinkOf w.flags env) = none)
    (hperiod : 0 < period w.flags.periodStr)
    (hsource : ParseURLRef w.urlParse (eventSource w.flags.eventSource env) = some u) :
    sent (main w).trace =
      sent (cyclesTrace w.flags.eventType u (label w.flags.label) 0 w.sendResults) := by
  rw [main_running w env u henv hclient hperiod hsource]
  simp [sent_append, sent_startupLogs]

theorem main_sent_get {U : Type} (w : World U) (env : envConfig) (u : U) (henv : w.env = .ok env)
    (hclient : w.newClient (sinkOf w.flags env) = none)
    (hperiod : 0 < period w.flags.periodStr)
    (hsource : ParseURLRef w.urlParse (eventSource w.flags.eventSource env) = some u)
    (i : Nat) (hi : i < w.sendResults.length) :
    (sent (main w).trace)[i]? =
      some (eventOf w.flags.eventType u (label w.flags.label) (wrapInt64 (i + 1))) := by
  rw [main_sent w env u henv hclient hperiod hsource, sent_cyclesTrace _ _ _ _ _ _ hi,
    seqAfter_zero]
  push_cast
  rfl



theorem scenario_running (rs : List (Option GoString)) :
    main (scenario rs) =
      { status := .running
        hb := some { Sequence := wrapInt64 rs.length, Label := str "test" }
        trace := cyclesTrace (str "demo.type") (str "https://example/1") (str "test") 0 rs } := by
  have h := main_running (scenario rs)
    { Sink := str "http://sink", Name := str "pod-7", Namespace := str "ns-a" }
    (str "https://example/1") rfl rfl
    (by show 0 < period (str "1"); decide)
    (by
      show ParseURLRef (fun u => if u = str "https://example/1" then some u else none)
        (eventSource (str "https://example/1")
          { Sink := str "http://sink", Name := str "pod-7", Namespace := str "ns-a" })
        = some (str "https://example/1")
      decide)
  have hl : label (scenario rs).flags.label = str "test" := by
    show label (str "\"test\"") = str "test"
    decide
  have hs : (startupLogs (scenario rs).flags
      { Sink := str "http://sink", Name := str "pod-7", Namespace := str "ns-a" } :
        List (Obs GoString)) = [] := rfl
  rw [hl, hs] at h
  exact h

/-! ## Timing of the trace -/

theorem timed_nil {U : Type} : Timed ([] : List (Obs U)) := by
  constructor
  · intro p e h
    have := List.IsPrefix.length_le h
    simp at this
  · intro p h
    have := List.IsPrefix.length_le h
    simp at this

theorem snoc_prefix_snoc {U : Type} (p t : List (Obs U)) (a b : Obs U)
    (h : p ++ [a] <+: t ++ [b]) : (p = t ∧ a = b) ∨ p ++ [a] <+: t := by
  rcases List.prefix_concat_iff.mp h with h | h
  · left
    have := List.append_inj' h rfl
    simpa using this
  · right
    exact h

theorem timed_log {U : Type} (t : List (Obs U)) (m : GoString) (h : Timed t) :
    Timed (t ++ [Obs.log m]) := by
  constructor
  · intro p e hp
    rcases snoc_prefix_snoc p t _ _ hp with ⟨_, h2⟩ | h2
    · cases h2
    · exact h.1 p e h2
  · intro p hp
    rcases snoc_prefix_snoc p t _ _ hp with ⟨_, h2⟩ | h2
    · cases h2
    · exact h.2 p h2

theorem timed_send {U : Type} (t : List (Obs U)) (e : Event U) (h : Timed t)
    (hb : ticks t = sends t) : Timed (t ++ [Obs.send e]) := by
  constructor
  · intro p e2 hp
    rcases snoc_prefix_snoc p t _ _ hp with ⟨h1, _⟩ | h2
    · rw [h1]; exact hb
    · exact h.1 p e2 h2
  · intro p hp
    rcases snoc_prefix_snoc p t _ _ hp with ⟨_, h2⟩ | h2
    · cases h2
    · exact h.2 p h2

theorem timed_tick {U : Type} (t : List (Obs U)) (h : Timed t)
    (hb : sends t = ticks t + 1) : Timed (t ++ [Obs.tick]) := by
  constructor
  · intro p e2 hp
    rcases snoc_prefix_snoc p t _ _ hp with ⟨_, h2⟩ | h2
    · cases h2
    · exact h.1 p e2 h2
  · intro p hp
    rcases snoc_prefix_snoc p t _ _ hp with ⟨h1, _⟩ | h2
    · rw [h1]; exact hb
    · exact h.2 p h2

theorem sends_snoc_send {U : Type} (t : List (Obs U)) (e : Event U) :
    sends (t ++ [Obs.send e]) = sends t + 1 := by
  rw [sends_append]; rfl

theorem sends_snoc_log {U : Type} (t : List (Obs U)) (m : GoString) :
    sends (t ++ [Obs.log m]) = sends t := by
  rw [sends_append]; rfl

theorem sends_snoc_tick {U : Type} (t : List (Obs U)) : sends (t ++ [Obs.tick]) = sends t := by
  rw [sends_append]; rfl

theorem ticks_snoc_send {U : Type} (t : List (Obs U)) (e : Event U) :
    ticks (t ++ [Obs.send e]) = ticks t := by
  rw [ticks_append]; rfl

theorem ticks_snoc_log {U : Type} (t : List (Obs U)) (m : GoString) :
    ticks (t ++ [Obs.log m]) = ticks t := by
  rw [ticks_append]; rfl

theorem ticks_snoc_tick {U : Type} (t : List (Obs U)) : ticks (t ++ [Obs.tick]) = ticks t + 1 := by
  rw [ticks_append]; rfl

theorem cycleTrace_snoc {U : Type} (t : List (Obs U)) (e : Event U) (r : Option GoString) :
    t ++ cycleTrace e r =
      match r with
      | some err =>
        t ++ [Obs.send e] ++ [Obs.log (str "failed to send cloudevent: " ++ err)] ++ [Obs.tick]
      | none => t ++ [Obs.send e] ++ [Obs.tick] := by
  cases r <;> simp [cycleTrace]

theorem timed_cycle {U : Type} (t : List (Obs U)) (e : Event U) (r : Option GoString)
    (h : Timed t) (hb : ticks t = sends t) :
    Timed (t ++ cycleTrace e r) ∧ ticks (t ++ cycleTrace e r) = sends (t ++ cycleTrace e r) ∧
      sends (t ++ cycleTrace e r) = sends t + 1 := by
  rw [cycleTrace_snoc]
  cases r with
  | none =>
    have hs : sends (t ++ [Obs.send e]) = ticks (t ++ [Obs.send e]) + 1 := by
      rw [sends_snoc_send, ticks_snoc_send, hb]
    refine ⟨timed_tick _ (timed_send t e h hb) hs, ?_, ?_⟩
    · show ticks (t ++ [Obs.send e] ++ [Obs.tick]) = sends (t ++ [Obs.send e] ++ [Obs.tick])
      rw [ticks_snoc_tick, sends_snoc_tick, ticks_snoc_send, sends_snoc_send, hb]
    · show sends (t ++ [Obs.send e] ++ [Obs.tick]) = sends t + 1
      rw [sends_snoc_tick, sends_snoc_send]
  | some err =>
    have h0 := timed_log _ (str "failed to send cloudevent: " ++ err) (timed_send t e h hb)
    have hs2 : sends (t ++ [Obs.send e] ++ [Obs.log (str "failed to send cloudevent: " ++ err)])
        = ticks (t ++ [Obs.send e] ++ [Obs.log (str "failed to send cloudevent: " ++ err)])
          + 1 := by
      rw [sends_snoc_log, ticks_snoc_log, sends_snoc_send, ticks_snoc_send, hb]
    refine ⟨timed_tick _ h0 hs2, ?_, ?_⟩
    · show ticks (t ++ [Obs.send e] ++ [Obs.log (str "failed to send cloudevent: " ++ err)]
          ++ [Obs.tick]) =
        sends (t ++ [Obs.send e] ++ [Obs.log (str "failed to send cloudevent: " ++ err)]
          ++ [Obs.tick])
      rw [ticks_snoc_tick, sends_snoc_tick, ticks_snoc_log, sends_snoc_log, ticks_snoc_send,
        sends_snoc_send, hb]
    · show sends (t ++ [Obs.send e] ++ [Obs.log (str "failed to send cloudevent: " ++ err)]
          ++ [Obs.tick]) = sends t + 1
      rw [sends_snoc_tick, sends_snoc_log, sends_snoc_send]

theorem timed_cycles {U : Type} (eventType : GoString) (u : U) (l : GoString)
    (rs : List (Option GoString)) : ∀ (s : Int) (t : List (Obs U)), Timed t →
      ticks t = sends t →
      Timed (t ++ cyclesTrace eventType u l s rs) ∧
        ticks (t ++ cyclesTrace eventType u l s rs) = sends (t ++ cyclesTrace eventType u l s rs) ∧
        sends (t ++ cyclesTrace eventType u l s rs) = sends t + rs.length := by
  induction rs with
  | nil => intro s t h hb; simpa [cyclesTrace] using ⟨h, hb⟩
  | cons r rs ih =>
    intro s t h hb
    obtain ⟨h1, h2, h3⟩ := timed_cycle t (eventOf eventType u l (wrapInt64 (s + 1))) r h hb
    obtain ⟨h4, h5, h6⟩ := ih (wrapInt64 (s + 1)) _ h1 h2
    simp only [cyclesTrace, ← List.append_assoc]
    refine ⟨h4, h5, ?_⟩
    rw [h6, h3, List.length_cons]
    omega

theorem timed_startupLogs {U : Type} (flags : Flags) (env : envConfig) :
    Timed (startupLogs flags env : List (Obs U)) := by
  unfold startupLogs
  split
  · exact timed_log [] _ timed_nil
  · exact timed_nil

theorem main_timed {U : Type} (w : World U) (env : envConfig) (u : U) (henv : w.env = .ok env)
    (hclient : w.newClient (sinkOf w.flags env) = none)
    (hperiod : 0 < period w.flags.periodStr)
    (hsource : ParseURLRef w.urlParse (eventSource w.flags.eventSource env) = some u) :
    Timed (main w).trace ∧ ticks (main w).trace = w.sendResults.length ∧
      sends (main w).trace = w.sendResults.length := by
  rw [main_running w env u henv hclient hperiod hsource]
  obtain ⟨h1, h2, h3⟩ := timed_cycles w.flags.eventType u (label w.flags.label) w.sendResults 0
    (startupLogs w.flags env) (timed_startupLogs w.flags env)
    (by rw [ticks_startupLogs]; simp [sends, sent_startupLogs])
  refine ⟨h1, ?_, ?_⟩
  · rw [h2, h3]; simp [sends, sent_startupLogs]
  · rw [h3]; simp [sends, sent_startupLogs]



/-! ## Independence of the delivery results -/

theorem loop_nil {U : Type} (urlParse : GoString → Option U) (eventType src : GoString)
    (h : ParseURLRef urlParse src = none) (r : Option GoString) (rs : List (Option GoString))
    (st : LoopState U) :
    loop urlParse eventType src (r :: rs) st = .error
      { hb := { Sequence := wrapInt64 (st.hb.Sequence + 1), Label := st.hb.Label }
        trace := st.trace } := by
  simp [loop, iteration_nil urlParse eventType src h]

theorem loop_outcomes {U : Type} (urlParse : GoString → Option U) (eventType src : GoString)
    (rs rs2 : List (Option GoString)) (h : rs2.length = rs.length) (st : LoopState U) :
    match loop urlParse eventType src rs st, loop urlParse eventType src rs2 st with
    | .ok a, .ok b => a.hb = b.hb ∧ sent a.trace = sent b.trace
    | .error a, .error b => a.hb = b.hb ∧ sent a.trace = sent b.trace
    | _, _ => False := by
  cases hp : ParseURLRef urlParse src with
  | some u =>
    rw [loop_ok urlParse eventType src u hp rs st, loop_ok urlParse eventType src u hp rs2 st]
    simp only [h, sent_append, true_and]
    rw [sent_cyclesTrace_outcomes eventType u st.hb.Label rs2 rs st.hb.Sequence h]
  | none =>
    cases rs with
    | nil =>
      cases rs2 with
      | nil => simp [loop]
      | cons r2 rs2 => simp at h
    | cons r rs =>
      cases rs2 with
      | nil => simp at h
      | cons r2 rs2 =>
        rw [loop_nil urlParse eventType src hp, loop_nil urlParse eventType src hp]
        simp

theorem main_outcomes {U : Type} (w : World U) (rs2 : List (Option GoString))
    (h : rs2.length = w.sendResults.length) :
    (main { w with sendResults := rs2 }).status = (main w).status ∧
      (main { w with sendResults := rs2 }).hb = (main w).hb ∧
      sent (main { w with sendResults := rs2 }).trace = sent (main w).trace := by
  unfold main
  cases w.env with
  | error e => simp
  | ok env =>
    simp only
    cases w.newClient (if env.Sink ≠ [] then env.Sink else w.flags.sink) with
    | some e => simp
    | none =>
      simp only
      cases NewTickerPanics (period w.flags.periodStr) with
      | true => simp
      | false =>
        have := loop_outcomes w.urlParse w.flags.eventType
          (eventSource w.flags.eventSource env) w.sendResults rs2 h
          { hb := hb w.flags.label,
            trace := if w.flags.eventSource = [] then
              [Obs.log (str "Heartbeats Source: " ++ eventSource w.flags.eventSource env)]
              else [] }
        revert this
        cases loop w.urlParse w.flags.eventType (eventSource w.flags.eventSource env)
          w.sendResults _ <;>
        cases loop w.urlParse w.flags.eventType (eventSource w.flags.eventSource env)
          rs2 _ <;> simp <;> intro h1 h2 <;> simp [h1, h2]

/-! ## The bounded loops run to completion -/

theorem DecodeRuneInString_size_pos (s : GoString) (h : s ≠ []) :
    1 ≤ (DecodeRuneInString s).2 := by
  cases s with
  | nil => exact absurd rfl h
  | cons c cs =>
    unfold DecodeRuneInString
    simp only
    repeat' split
    all_goals first
      | (rename_i h1; simp at h1; done)
      | (dsimp only; omega)

theorem tail_ite (P : Prop) [Decidable P] (s : GoString)
    (a b : Except StrconvError (Int × Bool × GoString))
    (ha : ∀ r m ss, a = .ok (r, m, ss) → ss.length ≤ s.length)
    (hb : ∀ r m ss, b = .ok (r, m, ss) → ss.length ≤ s.length) :
    ∀ r m ss, (if P then a else b) = .ok (r, m, ss) → ss.length ≤ s.length := by
  intro r m ss h
  split at h
  · exact ha r m ss h
  · exact hb r m ss h

theorem tail_error (s : GoString) (e : StrconvError) :
    ∀ (r : Int) (m : Bool) (ss : GoString),
      (Except.error e : Except StrconvError (Int × Bool × GoString)) = .ok (r, m, ss) →
        ss.length ≤ s.length := by
  intro r m ss h
  cases h

theorem tail_ok (s : GoString) (v : Int) (b : Bool) (t : GoString) (ht : t.length ≤ s.length) :
    ∀ (r : Int) (m : Bool) (ss : GoString),
      (Except.ok (v, b, t) : Except StrconvError (Int × Bool × GoString)) = .ok (r, m, ss) →
        ss.length ≤ s.length := by
  intro r m ss h
  simp only [Except.ok.injEq, Prod.mk.injEq] at h
  rw [← h.2.2]
  exact ht

theorem unquoteHex_tail (c : Byte) (s : GoString) :
    ∀ r m ss, unquoteHex c s = .ok (r, m, ss) → ss.length ≤ s.length := by
  unfold unquoteHex
  apply tail_ite
  · exact tail_error s _
  · cases hexDigits (s.take (hexLen c)) 0 with
    | none => exact tail_error s _
    | some v =>
      apply tail_ite
      · exact tail_ok s _ _ _ (by rw [List.length_drop]; omega)
      · apply tail_ite
        · exact tail_error s _
        · exact tail_ok s _ _ _ (by rw [List.length_drop]; omega)

theorem unquoteOctal_tail (c : Byte) (s : GoString) :
    ∀ r m ss, unquoteOctal c s = .ok (r, m, ss) → ss.length ≤ s.length := by
  unfold unquoteOctal
  apply tail_ite
  · exact tail_error s _
  · cases octDigits (s.take 2) ((c.val : Int) - 48) with
    | none => exact tail_error s _
    | some v =>
      apply tail_ite
      · exact tail_error s _
      · exact tail_ok s _ _ _ (by rw [List.length_drop]; omega)

theorem unquoteEscape_tail (c : Byte) (s : GoString) (quote : Byte) :
    ∀ r m ss, unquoteEscape c s quote = .ok (r, m, ss) → ss.length ≤ s.length := by
  unfold unquoteEscape
  repeat' first
    | exact tail_error s _
    | exact tail_ok s _ _ _ (Nat.le_refl _)
    | exact unquoteHex_tail c s
    | exact unquoteOctal_tail c s
    | apply tail_ite

theorem UnquoteChar_tail (s : GoString) (quote : Byte) (r : Int) (multibyte : Bool)
    (ss : GoString) (h : UnquoteChar s quote = .ok (r, multibyte, ss)) :
    ss.length < s.length := by
  unfold UnquoteChar at h
  split at h
  · cases h
  · rename_i c rest
    split at h
    · cases h
    · split at h
      · have hpos := DecodeRuneInString_size_pos (c :: rest) (by simp)
        simp only [Except.ok.injEq, Prod.mk.injEq] at h
        rw [← h.2.2, List.length_drop]
        simp only [List.length_cons]
        omega
      · split at h
        · simp only [Except.ok.injEq, Prod.mk.injEq] at h
          rw [← h.2.2]
          simp
        · split at h
          · cases h
          · have := unquoteEscape_tail _ _ _ _ _ _ h
            simp only [List.length_cons]
            omega

theorem unquoteLoop_fuel (quote : Byte) (fuel : Nat) : ∀ (s buf : GoString),
    s.length ≤ fuel → unquoteLoop quote fuel s buf = unquoteLoop quote s.length s buf := by
  induction fuel using Nat.strong_induction_on with
  | _ fuel ih =>
    intro s buf hle
    cases s with
    | nil => cases fuel <;> rfl
    | cons c cs =>
      cases fuel with
      | zero => simp at hle
      | succ fuel =>
        simp only [List.length_cons, unquoteLoop]
        cases hu : UnquoteChar (c :: cs) quote with
        | error e => rfl
        | ok v =>
          obtain ⟨r, multibyte, ss⟩ := v
          have hlt := UnquoteChar_tail _ _ _ _ _ hu
          simp only [List.length_cons] at hlt hle
          simp only
          split
          · rfl
          · rw [ih fuel (Nat.lt_succ_self _) ss _ (by omega),
              ih cs.length (by omega) ss _ (by omega)]



theorem validStringLoop_fuel (fuel : Nat) : ∀ s : GoString,
    s.length ≤ fuel → validStringLoop fuel s = validStringLoop s.length s := by
  induction fuel using Nat.strong_induction_on with
  | _ fuel ih =>
    intro s hle
    cases s with
    | nil => cases fuel <;> rfl
    | cons si rest =>
      cases fuel with
      | zero => simp at hle
      | succ fuel =>
        simp only [List.length_cons] at hle
        have key : ∀ k : Nat,
            validStringLoop fuel (rest.drop k) = validStringLoop rest.length (rest.drop k) := by
          intro k
          have hk : (rest.drop k).length ≤ rest.length := by
            rw [List.length_drop]; omega
          rw [ih fuel (Nat.lt_succ_self _) _ (by omega)]
          by_cases hr : rest.length < fuel + 1
          · rw [ih rest.length hr _ hk]
          · have : rest.length = fuel := by omega
            rw [this, ih fuel (Nat.lt_succ_self _) _ (by omega)]
        have key0 := key 0
        simp only [List.drop_zero] at key0
        simp only [List.length_cons, validStringLoop, key, key0]

theorem encodeStringLoop_fuel (fuel : Nat) : ∀ s : GoString,
    s.length ≤ fuel → encodeStringLoop fuel s = encodeStringLoop s.length s := by
  induction fuel using Nat.strong_induction_on with
  | _ fuel ih =>
    intro s hle
    cases s with
    | nil => cases fuel <;> rfl
    | cons b rest =>
      cases fuel with
      | zero => simp at hle
      | succ fuel =>
        simp only [List.length_cons] at hle
        have key : ∀ k : Nat,
            encodeStringLoop fuel (rest.drop k) = encodeStringLoop rest.length (rest.drop k) := by
          intro k
          have hk : (rest.drop k).length ≤ rest.length := by
            rw [List.length_drop]; omega
          rw [ih fuel (Nat.lt_succ_self _) _ (by omega)]
          by_cases hr : rest.length < fuel + 1
          · rw [ih rest.length hr _ hk]
          · have : rest.length = fuel := by omega
            rw [this, ih fuel (Nat.lt_succ_self _) _ (by omega)]
        have key0 := key 0
        simp only [List.drop_zero] at key0
        simp only [List.length_cons, encodeStringLoop, key, key0]

theorem formatBits_fuel (u : Nat) : ∀ (fuel : Nat) (acc : GoString),
    u < fuel → formatBits fuel u acc = formatBits (u + 1) u acc := by
  induction u using Nat.strong_induction_on with
  | _ u ih =>
    intro fuel acc hlt
    cases fuel with
    | zero => omega
    | succ fuel =>
      simp only [formatBits]
      split
      · rename_i h10
        have hdiv : u / 10 < u := Nat.div_lt_self (by omega) (by omega)
        rw [ih (u / 10) hdiv fuel _ (by omega), ih (u / 10) hdiv u _ hdiv]
      · rfl

/-! ## Label unquoting -/

theorem unquoteLoop_error (quote : Byte) (fuel : Nat) : ∀ (s buf : GoString),
    (unquoteLoop quote fuel s buf).2 ≠ none → (unquoteLoop quote fuel s buf).1 = [] := by
  induction fuel with
  | zero => intro s buf h; simp [unquoteLoop] at h
  | succ fuel ih =>
    intro s buf
    cases s with
    | nil => intro h; simp [unquoteLoop] at h
    | cons c cs =>
      unfold unquoteLoop
      cases hu : UnquoteChar (c :: cs) quote with
      | error e2 => simp
      | ok v =>
        obtain ⟨r, multibyte, ss⟩ := v
        simp only
        split
        · intro _; rfl
        · exact ih _ _

theorem Unquote_error (s : GoString) (h : (Unquote s).2 ≠ none) : (Unquote s).1 = [] := by
  revert h
  unfold Unquote
  simp only
  repeat' split
  all_goals first
    | exact fun _ => rfl
    | exact fun h => absurd rfl h
    | exact unquoteLoop_error _ _ _ _



theorem Unquote_plain (s : GoString) (h34 : (34 : Byte) ∉ s) (h92 : (92 : Byte) ∉ s)
    (h10 : (10 : Byte) ∉ s) (hv : ValidString s = true) :
    Unquote (34 :: s ++ [34]) = (s, none) := by
  have hlen : (34 :: s ++ [34] : GoString).length = s.length + 2 := by simp
  have hlast : (34 :: s ++ [34] : GoString).getD (s.length + 2 - 1) 0 = 34 := by
    simp [List.getD_eq_getElem?_getD, List.getElem?_append_right]
  have hfirst : (34 :: s ++ [34] : GoString).getD 0 0 = 34 := rfl
  have hmid : ((34 :: s ++ [34] : GoString).drop 1).take (s.length + 2 - 2) = s := by
    simp
  unfold Unquote
  simp only [hlen, hlast, hfirst, hmid]
  simp [h34, h92, h10, hv]

theorem Unquote_unterminated (l : GoString) (hq : l.head? = some 34)
    (hlast : l.getLast? ≠ some 34) : (Unquote l).2 = some .ErrSyntax := by
  cases l with
  | nil => simp at hq
  | cons c cs =>
    simp only [List.head?_cons, Option.some.injEq] at hq
    subst hq
    unfold Unquote
    simp only
    split
    · rfl
    · rename_i hn
      have hne : (List.getD (34 :: cs) 0 0 : Byte) ≠
          List.getD (34 :: cs) ((34 :: cs : GoString).length - 1) 0 := by
        intro h
        apply hlast
        rw [List.getLast?_eq_getElem?]
        have h2 : (34 :: cs : GoString)[(34 :: cs : GoString).length - 1]? =
            some (List.getD (34 :: cs) ((34 :: cs : GoString).length - 1) 0) := by
          rw [List.getD_eq_getElem?_getD]
          have hlt : (34 :: cs : GoString).length - 1 < (34 :: cs : GoString).length := by
            simp
          rw [List.getElem?_eq_getElem hlt]
          rfl
        rw [h2, ← h]
        rfl
      rw [if_pos hne]

/-! ## Decimal numerals -/

theorem atoiDigits_digits (s : GoString) : ∀ n : Int,
    (∀ c ∈ s, 48 ≤ c.val ∧ c.val ≤ 57) →
      atoiDigits s n = some (s.foldl (fun n c => n * 10 + ((c.val : Int) - 48)) n) := by
  induction s with
  | nil => intro n _; rfl
  | cons c cs ih =>
    intro n h
    have hc := h c (List.mem_cons_self c cs)
    have hd : (c.val + 256 - 48) % 256 = c.val - 48 := by omega
    have h9 : ¬ (c.val + 256 - 48) % 256 > 9 := by omega
    simp only [atoiDigits, h9, if_false, List.foldl_cons]
    rw [ih _ (fun x hx => h x (List.mem_cons_of_mem c hx)), hd]
    congr 2
    omega

theorem Atoi_digits (s : GoString) (hd : ∀ c ∈ s, 48 ≤ c.val ∧ c.val ≤ 57)
    (h0 : 0 < s.length) (h19 : s.length < 19) : Atoi s = (decimalValue s, none) := by
  cases s with
  | nil => simp at h0
  | cons c cs =>
    have hc := hd c (List.mem_cons_self c cs)
    have h45 : c ≠ 45 := by
      intro h; rw [h] at hc; revert hc; decide
    have h43 : c ≠ 43 := by
      intro h; rw [h] at hc; revert hc; decide
    unfold Atoi
    simp only [h0, h19, and_self, if_true, List.head?_cons, Option.some.injEq, h45, h43,
      or_self, if_false, false_and]
    rw [atoiDigits_digits _ _ hd]
    rfl



theorem Atoi_minus_digits (s : GoString) (hd : ∀ c ∈ s, 48 ≤ c.val ∧ c.val ≤ 57)
    (h0 : 0 < s.length) (h18 : s.length < 18) : Atoi (45 :: s) = (-decimalValue s, none) := by
  have hlen : ¬ s.length < 1 := by omega
  unfold Atoi
  simp only [List.length_cons, Nat.zero_lt_succ, true_and, List.head?_cons, true_or, if_true,
    List.drop_succ_cons, List.drop_zero, hlen, and_false, if_false,
    show s.length + 1 < 19 from by omega]
  rw [atoiDigits_digits _ _ hd]
  rfl

theorem foldl_digits_nonneg (s : GoString) : ∀ n : Int, 0 ≤ n →
    (∀ c ∈ s, 48 ≤ c.val ∧ c.val ≤ 57) →
      0 ≤ s.foldl (fun n c => n * 10 + ((c.val : Int) - 48)) n := by
  induction s with
  | nil => intro n hn _; exact hn
  | cons c cs ih =>
    intro n hn h
    have hc := h c (List.mem_cons_self c cs)
    simp only [List.foldl_cons]
    exact ih _ (by omega) (fun x hx => h x (List.mem_cons_of_mem c hx))

theorem decimalValue_nonneg (s : GoString) (hd : ∀ c ∈ s, 48 ≤ c.val ∧ c.val ≤ 57) :
    0 ≤ decimalValue s :=
  foldl_digits_nonneg s 0 (Int.le_refl 0) hd

/-! ## The claims of the specification -/

/-- C1, the code at the labels of the claim: for every label that starts with a
double quote, if `strconv.Unquote` rejects it, and in particular if its last
byte is not a double quote, the label of the heartbeat is the empty string and
not the label given: the first result of `Unquote` replaces the label although
the error is not nil. -/
theorem C1_malformed_label_is_empty (l : GoString) (hq : l.head? = some 34) :
    ((Unquote l).2 ≠ none → (hb l).Label = [] ∧ (hb l).Label ≠ l) ∧
      (l.getLast? ≠ some 34 → (hb l).Label = [] ∧ (hb l).Label ≠ l) := by
  have key : (Unquote l).2 ≠ none → (hb l).Label = [] ∧ (hb l).Label ≠ l := by
    intro herr
    have h : (hb l).Label = [] := by
      cases l with
      | nil => simp at hq
      | cons c cs =>
        simp only [List.head?_cons, Option.some.injEq] at hq
        simp only [hb, label, hq, if_true]
        exact Unquote_error _ (by rw [hq] at herr; exact herr)
    refine ⟨h, ?_⟩
    rw [h]
    intro hl
    rw [← hl] at hq
    simp at hq
  refine ⟨key, fun hlast => key ?_⟩
  rw [Unquote_unterminated l hq hlast]
  simp

/-- C1 at the label made of a double quote followed by `unterminated`. -/
theorem C1_malformed_label_is_empty_witness :
    (Unquote (str "\"unterminated")).2 = some .ErrSyntax ∧
      (hb (str "\"unterminated")).Label = [] ∧
      (hb (str "\"unterminated")).Label ≠ str "\"unterminated" :=
  ⟨by decide, (C1_malformed_label_is_empty (str "\"unterminated") (by decide)).1 (by decide)⟩

/-- C2 (as stated) fails: in the scenario run for four cycles the first thing
the process does is a delivery, so that one delivery has been started when no
tick has been received yet, and four have been started when three ticks have
been received. -/
theorem C2_counterexample :
    (main (scenario [none, none, none, none])).trace.take 1 =
        [Obs.send (eventOf (str "demo.type") (str "https://example/1") (str "test") 1)] ∧
      ticks ((main (scenario [none, none, none, none])).trace.take 1) = 0 ∧
      sends ((main (scenario [none, none, none, none])).trace.take 1) = 1 ∧
      ticks ((main (scenario [none, none, none, none])).trace.take 7) = 3 ∧
      sends ((main (scenario [none, none, none, none])).trace.take 7) = 4 := by
  decide

/-- C2 (amended): in every run that reaches the loop with a source that parses,
each delivery is started when exactly as many ticks have been received as
deliveries were started before it (the first one before any tick), each tick is
received when exactly one more delivery than ticks has been started, and after
`n` cycles `n` deliveries have been started and `n` ticks received. -/
theorem C2_send_then_wait {U : Type} (w : World U) (env : envConfig) (u : U)
    (henv : w.env = .ok env) (hclient : w.newClient (sinkOf w.flags env) = none)
    (hperiod : 0 < period w.flags.periodStr)
    (hsource : ParseURLRef w.urlParse (eventSource w.flags.eventSource env) = some u) :
    (∀ p e, p ++ [Obs.send e] <+: (main w).trace → ticks p = sends p) ∧
      (∀ p, p ++ [Obs.tick] <+: (main w).trace → sends p = ticks p + 1) ∧
      sends (main w).trace = w.sendResults.length ∧
      ticks (main w).trace = w.sendResults.length := by
  obtain ⟨h1, h2, h3⟩ := main_timed w env u henv hclient hperiod hsource
  exact ⟨h1.1, h1.2, h3, h2⟩

/-- C2 (amended) at the scenario run for three cycles. -/
theorem C2_send_then_wait_witness :
    (∀ p e, p ++ [Obs.send e] <+: (main (scenario [none, none, none])).trace →
        ticks p = sends p) ∧
      (∀ p, p ++ [Obs.tick] <+: (main (scenario [none, none, none])).trace →
        sends p = ticks p + 1) ∧
      sends (main (scenario [none, none, none])).trace = 3 ∧
      ticks (main (scenario [none, none, none])).trace = 3 :=
  C2_send_then_wait (scenario [none, none, none])
    { Sink := str "http://sink", Name := str "pod-7", Namespace := str "ns-a" }
    (str "https://example/1") rfl rfl (by decide) (by decide)

/-- C3 (as stated) fails for a configured label that is quoted and not valid
UTF-8: with the label flag made of a double quote, the byte `0xFF` and a double
quote, the three records of the scenario carry the sequences 1, 2, 3 and the
label `EF BF BD`, which is neither the flag nor the byte between its quotes. -/
theorem C3_counterexample :
    (sent (main { scenario [none, none, none] with
        flags := { (scenario [none, none, none]).flags with label := [34, 255, 34] } }).trace).map
        (fun e => (e.Data.Sequence, e.Data.Label)) =
      [(1, [239, 191, 189]), (2, [239, 191, 189]), (3, [239, 191, 189])] ∧
      ([239, 191, 189] : GoString) ≠ [34, 255, 34] ∧ ([239, 191, 189] : GoString) ≠ [255] := by
  decide

/-- C3 (amended): in every run that reaches the loop with a source that parses,
one record is handed to delivery per cycle; the `n`-th of them carries the
counter after `n` increments, the label resolved at startup, the configured
type, the parsed source and the fixed extension set; and for `n < 2^63` its
sequence is `n` and its label is the configured label when that does not start
with a double quote, and `s` when the configured label is a double quote, `s`
and a double quote with `s` valid UTF-8 free of double quote, backslash and
newline. -/
theorem C3_nth_record {U : Type} (w : World U) (env : envConfig) (u : U)
    (henv : w.env = .ok env) (hclient : w.newClient (sinkOf w.flags env) = none)
    (hperiod : 0 < period w.flags.periodStr)
    (hsource : ParseURLRef w.urlParse (eventSource w.flags.eventSource env) = some u)
    (n : Nat) (h1 : 1 ≤ n) (hn : n ≤ w.sendResults.length) :
    (sent (main w).trace).length = w.sendResults.length ∧
      (sent (main w).trace)[n - 1]? = some
        { Context :=
            { SpecVersion := str "0.2", Type_ := w.flags.eventType, Source := u,
              Extensions :=
                [(str "the", .int 42), (str "heart", .string (str "yes")),
                  (str "beats", .bool true)] }
          Data := { Sequence := wrapInt64 n, Label := label w.flags.label } } ∧
      (n < 2 ^ 63 → w.flags.label.head? ≠ some 34 →
        (sent (main w).trace)[n - 1]? = some
          { Context :=
              { SpecVersion := str "0.2", Type_ := w.flags.eventType, Source := u,
                Extensions :=
                  [(str "the", .int 42), (str "heart", .string (str "yes")),
                    (str "beats", .bool true)] }
            Data := { Sequence := n, Label := w.flags.label } }) ∧
      (n < 2 ^ 63 → ∀ s : GoString, w.flags.label = 34 :: s ++ [34] → (34 : Byte) ∉ s →
        (92 : Byte) ∉ s → (10 : Byte) ∉ s → ValidString s = true →
        (sent (main w).trace)[n - 1]? = some
          { Context :=
              { SpecVersion := str "0.2", Type_ := w.flags.eventType, Source := u,
                Extensions :=
                  [(str "the", .int 42), (str "heart", .string (str "yes")),
                    (str "beats", .bool true)] }
            Data := { Sequence := n, Label := s } }) := by
  have hcast : ((n - 1 : Nat) : Int) + 1 = n := by omega
  have hget := main_sent_get w env u henv hclient hperiod hsource (n - 1) (by omega)
  rw [hcast] at hget
  have hrange : n < 2 ^ 63 → wrapInt64 n = n := by
    intro hmax
    have h0 : (0 : Int) ≤ n := Int.natCast_nonneg n
    have hlt : (n : Int) < 2 ^ 63 := by exact_mod_cast hmax
    exact wrapInt64_of_range n (by norm_num; omega) hlt
  refine ⟨?_, hget, ?_, ?_⟩
  · rw [main_sent w env u henv hclient hperiod hsource, sent_cyclesTrace_length]
  · intro hmax hq
    have hl : label w.flags.label = w.flags.label := by
      cases hf : w.flags.label with
      | nil => rfl
      | cons c cs =>
        have hc : c ≠ 34 := by
          rw [hf] at hq
          simpa using hq
        simp [label, hc]
    rw [hget, hrange hmax, hl]
    rfl
  · intro hmax s hs h34 h92 h10 hv
    have hl : label w.flags.label = s := by
      rw [hs]
      show label (34 :: (s ++ [34])) = s
      simp only [label, if_true]
      have := Unquote_plain s h34 h92 h10 hv
      simp only [List.cons_append] at this
      rw [this]
    rw [hget, hrange hmax, hl]
    rfl

/-- C3 (amended) at the scenario, whose label flag is `test` in double quotes:
the third record has body `(3, test)`. -/
theorem C3_nth_record_witness :
    (sent (main (scenario [none, none, none])).trace).length = 3 ∧
      (sent (main (scenario [none, none, none])).trace)[2]? = some
        { Context :=
            { SpecVersion := str "0.2", Type_ := str "demo.type",
              Source := str "https://example/1",
              Extensions :=
                [(str "the", .int 42), (str "heart", .string (str "yes")),
                  (str "beats", .bool true)] }
          Data := { Sequence := 3, Label := str "test" } } :=
  ⟨(C3_nth_record (scenario [none, none, none])
      { Sink := str "http://sink", Name := str "pod-7", Namespace := str "ns-a" }
      (str "https://example/1") rfl rfl (by decide) (by decide) 3 (by decide) (by decide)).1,
    (C3_nth_record (scenario [none, none, none])
      { Sink := str "http://sink", Name := str "pod-7", Namespace := str "ns-a" }
      (str "https://example/1") rfl rfl (by decide) (by decide) 3 (by decide) (by decide)).2.2.2
      (by norm_num) (str "test") (by decide) (by decide) (by decide) (by decide) (by decide)⟩

/-- C4: the heartbeat after a cycle, and whether the cycle completes, do not
depend on the result of the delivery; a cycle whose source parses ends waiting
for the next tick whatever that result; two runs that differ only in the
delivery results have the same status and heartbeat and hand the same records
to delivery; and after a failure on cycle `N` the next record carries the
counter of cycle `N` incremented once, never the same value again, which is
`N + 1` after `N` for `N + 1 < 2^63`. -/
theorem C4_failure_isolated {U : Type} (w : World U) :
    (∀ (st : LoopState U) (src : GoString) (r1 r2 : Option GoString),
        (iteration w.urlParse w.flags.eventType src r1 st).map (fun s => s.hb) =
          (iteration w.urlParse w.flags.eventType src r2 st).map (fun s => s.hb)) ∧
      (∀ (st : LoopState U) (src : GoString) (u : U) (r : Option GoString),
        ParseURLRef w.urlParse src = some u →
          ∃ st2, iteration w.urlParse w.flags.eventType src r st = .ok st2 ∧
            st2.trace.getLast? = some Obs.tick) ∧
      (∀ rs2 : List (Option GoString), rs2.length = w.sendResults.length →
        (main { w with sendResults := rs2 }).status = (main w).status ∧
          (main { w with sendResults := rs2 }).hb = (main w).hb ∧
          sent (main { w with sendResults := rs2 }).trace = sent (main w).trace) ∧
      (∀ (env : envConfig) (u : U) (N : Nat) (err : GoString), w.env = .ok env →
        w.newClient (sinkOf w.flags env) = none → 0 < period w.flags.periodStr →
        ParseURLRef w.urlParse (eventSource w.flags.eventSource env) = some u →
        1 ≤ N → N + 1 ≤ w.sendResults.length →
        w.sendResults[N - 1]? = some (some err) →
          ((sent (main w).trace)[N - 1]?).map (fun e => e.Data) =
              some { Sequence := wrapInt64 N, Label := label w.flags.label } ∧
            ((sent (main w).trace)[N]?).map (fun e => e.Data) =
              some { Sequence := wrapInt64 (wrapInt64 N + 1), Label := label w.flags.label } ∧
            wrapInt64 (wrapInt64 N + 1) ≠ wrapInt64 N ∧
            (N + 1 < 2 ^ 63 → wrapInt64 N = N ∧ wrapInt64 (wrapInt64 N + 1) = N + 1)) := by
  refine ⟨?_, ?_, ?_, ?_⟩
  · intro st src r1 r2
    cases hp : ParseURLRef w.urlParse src with
    | some u =>
      rw [iteration_ok _ _ _ u hp, iteration_ok _ _ _ u hp]
      rfl
    | none => rw [iteration_nil _ _ _ hp, iteration_nil _ _ _ hp]
  · intro st src u r hp
    refine ⟨_, iteration_ok _ _ _ u hp r st, ?_⟩
    cases r <;> simp [cycleTrace]
  · intro rs2 h
    exact main_outcomes w rs2 h
  · intro env u N err henv hclient hperiod hsource h1 hN _
    have h0 : (0 : Int) ≤ N := Int.natCast_nonneg N
    have hcast : ((N - 1 : Nat) : Int) + 1 = N := by omega
    rw [main_sent_get w env u henv hclient hperiod hsource (N - 1) (by omega),
      main_sent_get w env u henv hclient hperiod hsource N (by omega), hcast, wrapInt64_succ]
    refine ⟨rfl, rfl, ?_, ?_⟩
    · unfold wrapInt64
      norm_num
      omega
    · intro hmax
      have hN' : (N : Int) + 1 < 2 ^ 63 := by exact_mod_cast hmax
      exact ⟨wrapInt64_of_range N (by norm_num; omega) (by omega),
        wrapInt64_of_range (N + 1) (by norm_num; omega) hN'⟩

/-- C4 at the scenario with a failed second delivery: the second record has
sequence 2 and the third has sequence 3. -/
theorem C4_failure_isolated_witness :
    ((sent (main (scenario [none, some (str "timeout"), none])).trace)[1]?).map
        (fun e => e.Data) = some { Sequence := 2, Label := str "test" } ∧
      ((sent (main (scenario [none, some (str "timeout"), none])).trace)[2]?).map
        (fun e => e.Data) = some { Sequence := 3, Label := str "test" } :=
  ⟨((C4_failure_isolated (scenario [none, some (str "timeout"), none])).2.2.2
      { Sink := str "http://sink", Name := str "pod-7", Namespace := str "ns-a" }
      (str "https://example/1") 2 (str "timeout") rfl rfl (by decide) (by decide) (by decide)
      (by decide) rfl).1,
    ((C4_failure_isolated (scenario [none, some (str "timeout"), none])).2.2.2
      { Sink := str "http://sink", Name := str "pod-7", Namespace := str "ns-a" }
      (str "https://example/1") 2 (str "timeout") rfl rfl (by decide) (by decide) (by decide)
      (by decide) rfl).2.1⟩

/-- C5 (as stated) fails for a quoted label that is not valid UTF-8: the label
made of a double quote, the byte `0xFF` and a double quote contains no double
quote, backslash or newline between the quotes, and the label of the heartbeat
is the encoding of U+FFFD, not the byte `0xFF`. -/
theorem C5_counterexample :
    (34 : Byte) ∉ ([255] : GoString) ∧ (92 : Byte) ∉ ([255] : GoString) ∧
      (10 : Byte) ∉ ([255] : GoString) ∧
      (hb (34 :: [255] ++ [34])).Label = [239, 191, 189] ∧
      (hb (34 :: [255] ++ [34])).Label ≠ [255] := by
  decide

/-- C5 (amended): a label that does not start with a double quote, the empty
label included, is the label of the heartbeat unchanged; and for every `s` that
is valid UTF-8 and contains no double quote, backslash or newline, the label
made of a double quote, `s` and a double quote gives the label `s`. -/
theorem C5_label_unquoting :
    (∀ l : GoString, l.head? ≠ some 34 → (hb l).Label = l) ∧
      (∀ s : GoString, (34 : Byte) ∉ s → (92 : Byte) ∉ s → (10 : Byte) ∉ s →
        ValidString s = true → (hb (34 :: s ++ [34])).Label = s) := by
  constructor
  · intro l hl
    cases l with
    | nil => rfl
    | cons c cs =>
      have hc : c ≠ 34 := by simpa using hl
      simp [hb, label, hc]
  · intro s h34 h92 h10 hv
    show label (34 :: (s ++ [34])) = s
    simp only [label, if_true]
    have := Unquote_plain s h34 h92 h10 hv
    simp only [List.cons_append] at this
    rw [this]

/-- C5 (amended) at the labels `hello`, the empty label and `hello` in double
quotes. -/
theorem C5_label_unquoting_witness :
    (hb (str "hello")).Label = str "hello" ∧ (hb []).Label = [] ∧
      (hb (34 :: str "hello" ++ [34])).Label = str "hello" :=
  ⟨C5_label_unquoting.1 (str "hello") (by decide), C5_label_unquoting.1 [] (by decide),
    C5_label_unquoting.2 (str "hello") (by decide) (by decide) (by decide) (by decide)⟩

/-- C6 (as stated) fails when `p` seconds do not fit a 64-bit duration: the
string `9223372037` parses as the integer 9223372037 and the period is
-9223372036709551616 nanoseconds. -/
theorem C6_counterexample :
    Atoi (str "9223372037") = (9223372037, none) ∧
      period (str "9223372037") = -9223372036709551616 ∧
      period (str "9223372037") ≠ 9223372037 * Second := by
  decide

/-- C6 (amended): when `strconv.Atoi` parses the period string as an integer
`p` with `-9223372036 ≤ p ≤ 9223372036` the period is exactly `p` seconds; this
is so for every string of one to seventeen decimal digits that denotes such a
`p`, with or without a minus sign in front; and when `Atoi` rejects the string
the period is exactly five seconds. -/
theorem C6_period (periodStr : GoString) :
    (∀ p : Int, Atoi periodStr = (p, none) → -9223372036 ≤ p → p ≤ 9223372036 →
        period periodStr = p * Second) ∧
      ((∀ c ∈ periodStr, 48 ≤ c.val ∧ c.val ≤ 57) → 0 < periodStr.length →
        periodStr.length < 18 → decimalValue periodStr ≤ 9223372036 →
          period periodStr = decimalValue periodStr * Second ∧
            period (45 :: periodStr) = -decimalValue periodStr * Second) ∧
      ((Atoi periodStr).2 ≠ none → period periodStr = 5 * Second) := by
  have inRange : ∀ (s : GoString) (p : Int), Atoi s = (p, none) → -9223372036 ≤ p →
      p ≤ 9223372036 → period s = p * Second := by
    intro s p hp h1 h2
    simp only [period, hp]
    apply wrapInt64_of_range <;> simp only [Second] <;> norm_num <;> omega
  refine ⟨inRange periodStr, ?_, ?_⟩
  · intro hd h0 h18 hmax
    have hnn := decimalValue_nonneg periodStr hd
    exact ⟨inRange _ _ (Atoi_digits periodStr hd h0 (by omega)) (by omega) hmax,
      inRange _ _ (Atoi_minus_digits periodStr hd h0 h18) (by omega) (by omega)⟩
  · intro h
    unfold period
    cases ha : Atoi periodStr with
    | mk p e =>
      cases e with
      | none => simp [ha] at h
      | some e => exact wrapInt64_of_range _ (by decide) (by decide)

/-- C6 (amended) at the strings `5`, `-3`, `abc` and the empty string. -/
theorem C6_period_witness :
    period (str "5") = 5 * Second ∧ period (str "-3") = -3 * Second ∧
      period (str "abc") = 5 * Second ∧ period [] = 5 * Second :=
  ⟨(C6_period (str "5")).1 5 (by decide) (by decide) (by decide),
    ((C6_period (str "3")).2.1
      (by
        intro c hc
        change c ∈ ([51] : GoString) at hc
        rw [List.mem_singleton] at hc
        subst hc
        decide)
      (by decide) (by decide) (by decide)).2,
    (C6_period (str "abc")).2.2 (by decide), (C6_period []).2.2 (by decide)⟩

/-- C7: with an empty source flag the source is the fixed text
`https://knative.dev/eventing-contrib/cmd/heartbeats/#` followed by the
pod namespace, `/` and the pod name, so that it contains `ns-a/pod-7` for the
name `pod-7` and the namespace `ns-a`, and it is the same for any two environments
with the same name and namespace; a source flag that is not empty is the
source unchanged, whatever the environment. -/
theorem C7_source :
    (∀ env : envConfig, eventSource [] env =
        str "https://knative.dev/eventing-contrib/cmd/heartbeats/#" ++ env.Namespace
          ++ str "/" ++ env.Name) ∧
      (∀ sink : GoString, str "ns-a/pod-7" <:+:
        eventSource [] { Sink := sink, Name := str "pod-7", Namespace := str "ns-a" }) ∧
      (∀ env1 env2 : envConfig, env1.Name = env2.Name → env1.Namespace = env2.Namespace →
        eventSource [] env1 = eventSource [] env2) ∧
      (∀ (flag : GoString) (env : envConfig), flag ≠ [] → eventSource flag env = flag) := by
  refine ⟨fun env => rfl, fun sink => ?_, fun env1 env2 h1 h2 => ?_, fun flag env h => ?_⟩
  · refine ⟨str "https://knative.dev/eventing-contrib/cmd/heartbeats/#", [], ?_⟩
    show _ = str "https://knative.dev/eventing-contrib/cmd/heartbeats/#" ++ str "ns-a"
      ++ str "/" ++ str "pod-7"
    decide
  · simp [eventSource, h1, h2]
  · simp [eventSource, h]

/-- C7 at the name `pod-7` and the namespace `ns-a`, and at the source flag
`https://example/1`. -/
theorem C7_source_witness :
    eventSource [] { Sink := [], Name := str "pod-7", Namespace := str "ns-a" } =
        str "https://knative.dev/eventing-contrib/cmd/heartbeats/#ns-a/pod-7" ∧
      eventSource (str "https://example/1")
        { Sink := [], Name := str "pod-7", Namespace := str "ns-a" } =
        str "https://example/1" :=
  ⟨(C7_source.1 { Sink := [], Name := str "pod-7", Namespace := str "ns-a" }).trans
      (by decide),
    C7_source.2.2.2 (str "https://example/1") _ (by decide)⟩

/-- C8 (as stated) fails: the JSON names of the fields of `Heartbeat` are `id`
and `label`, not `sequence` and `label`, and the body of the first record of
the scenario is `{"id":1,"label":"test"}`. -/
theorem C8_counterexample :
    fieldNames HeartbeatType = some [some (str "id"), some (str "label")] ∧
      fieldNames HeartbeatType ≠ some [some (str "sequence"), some (str "label")] ∧
      Heartbeat.MarshalJSON { Sequence := 1, Label := str "test" } =
        some (str "\x7b\"id\":1,\"label\":\"test\"\x7d") := by
  decide

/-- C8 (amended): the body of every record is the JSON object with exactly the
members `id` and `label`, in this order: the counter in decimal under `id` and
the JSON string for the label under `label`. -/
theorem C8_body_shape (h : Heartbeat) :
    fieldNames HeartbeatType = some [some (str "id"), some (str "label")] ∧
      h.MarshalJSON =
        some (str "\x7b\"id\":" ++ FormatInt h.Sequence ++ str ",\"label\":"
          ++ encodeString h.Label ++ str "\x7d") := by
  have hn : fieldNames HeartbeatType = some [some (str "id"), some (str "label")] := by decide
  refine ⟨hn, ?_⟩
  have hd : ([some (str "id"), some (str "label")].filterMap id).Nodup := by decide
  have he1 : HTMLEscape (str "id") = str "id" := by decide
  have he2 : HTMLEscape (str "label") = str "label" := by decide
  simp only [Heartbeat.MarshalJSON, Marshal, hn, hd, Heartbeat.values, not_true_eq_false,
    List.length_cons, List.length_nil, ne_eq, not_true_eq_false, or_self, if_false,
    List.zip_cons_cons, List.zip_nil_right, structEncoderLoop, he1, he2, encodeValue]
  have h1 : ([123] ++ ([34] ++ str "id" ++ str "\":") : GoString) = str "\x7b\"id\":" := by decide
  have h2 : ([44] ++ ([34] ++ str "label" ++ str "\":") : GoString) = str ",\"label\":" := by
    decide
  have h3 : (if (44 : Byte) = 123 then str "\x7b\x7d" else [125]) = str "\x7d" := by decide
  rw [h1, h2, h3]
  simp only [List.append_assoc]

/-- C8 (amended) at a counter of 1 and the label `a`, byte `0xFF`, `b`. -/
theorem C8_body_shape_witness :
    Heartbeat.MarshalJSON { Sequence := 1, Label := [97, 255, 98] } =
      some (str "\x7b\"id\":1,\"label\":\"a\\ufffdb\"\x7d") :=
  (C8_body_shape { Sequence := 1, Label := [97, 255, 98] }).2.trans (by decide)

/-- C9, the code at a source that does not parse: startup completes, the loop
is entered, the counter is incremented to 1, and building the first record
dereferences the nil result of `types.ParseURLRef`; nothing is sent. -/
theorem C9_unparseable_source {U : Type} (w : World U) (env : envConfig)
    (r : Option GoString) (rs : List (Option GoString)) (henv : w.env = .ok env)
    (hclient : w.newClient (sinkOf w.flags env) = none)
    (hperiod : 0 < period w.flags.periodStr)
    (hsource : ParseURLRef w.urlParse (eventSource w.flags.eventSource env) = none)
    (hsend : w.sendResults = r :: rs) :
    main w =
      { status := .panicked .nilDereference
        hb := some { Sequence := 1, Label := label w.flags.label }
        trace := startupLogs w.flags env } := by
  rw [main_started w env henv hclient hperiod, hsend, loop_nil _ _ _ hsource]
  rfl

/-- C9 at the scenario with the source flag `:`. -/
theorem C9_unparseable_source_witness :
    main { scenario [none] with
        flags := { (scenario [none]).flags with eventSource := str ":" } } =
      { status := .panicked .nilDereference
        hb := some { Sequence := 1, Label := str "test" }
        trace := [] } :=
  C9_unparseable_source _
    { Sink := str "http://sink", Name := str "pod-7", Namespace := str "ns-a" } none []
    rfl rfl (by decide) (by decide) rfl

/-- C10, the code at the period strings of the claim: `0` gives the period 0,
`-3` a negative period, and `9223372037` and `36028797018963968` overflow to a
negative period and to 0; with the period string `0` the process panics in
`time.NewTicker` before anything is sent. -/
theorem C10_nonpositive_period :
    period (str "0") = 0 ∧ period (str "-3") = -3 * Second ∧
      period (str "9223372037") = -9223372036709551616 ∧
      period (str "36028797018963968") = 0 ∧
      main { scenario [none] with
          flags := { (scenario [none]).flags with periodStr := str "0" } } =
        { status := .panicked .nonPositiveInterval
          hb := some { Sequence := 0, Label := str "test" }
          trace := [] } := by
  decide

end Heartbeats
